import Mathlib

/-!
Verification of the mc-resources-plugin core against its design document.

The definitions below are a shallow embedding of the TypeScript sources:

* `src/render/Renderer.ts` — `applyTint`, `getTintColor`, `TINT_COLORS`,
  the default-scale computation of `renderBlock`, the back-face cull and
  depth sort of `renderBlock`, and `loadModel`;
* `src/render/resourcePackBuilder.ts` — `resolveModel`;
* `src/render/paths.ts` — `normalizeModelPath`;
* `src/mojang/itemManager.ts` — `getModelDisplayType`;
* `src/mojang/minecraftVersionManager.ts` — `getVersionManifest`, `getAssets`
  and the in-flight task map of `getAssets`.

Filesystem contents, network responses and zip archives are passed in
explicitly as values; JavaScript objects are modelled as association lists
whose lookup is first-match (object spread puts the overriding entries
first), numbers as `Nat`/`Int`/`Rat`, and thrown exceptions as
`Option`/`Except` failures.
-/

namespace MCPlugin

/-! ### Pixels and `applyTint` (Renderer.ts lines 359-409)

A texture is its pixel data: a list of RGBA samples, each channel 0..255.
`applyTint` draws the source, multiply-blends a fully opaque tint layer
over it, then walks the pixel data restoring the original alpha and
forcing pixels whose source alpha was 0 back to fully transparent black. -/

structure Pixel where
  r : Nat
  g : Nat
  b : Nat
  a : Nat
  deriving DecidableEq

/-- One channel of the canvas `multiply` blend: product scaled to 0..255. -/
def multiplyChannel (s d : Nat) : Nat :=
  s * d / 255

/-- The multiply-blend of the opaque tint layer over one source pixel
(the tint layer has alpha 255 everywhere, so the composited alpha is 255;
the final alpha-restore loop overwrites it anyway). -/
def multiplyBlend (tint : Nat × Nat × Nat) (p : Pixel) : Pixel :=
  ⟨multiplyChannel tint.1 p.r, multiplyChannel tint.2.1 p.g,
   multiplyChannel tint.2.2 p.b, 255⟩

/-- The alpha-restore loop body (Renderer.ts lines 391-403): a source pixel
with alpha 0 becomes transparent black, any other pixel keeps the blended
colour with the source alpha written back. -/
def restoreAlpha (src res : Pixel) : Pixel :=
  if src.a = 0 then ⟨0, 0, 0, 0⟩ else ⟨res.r, res.g, res.b, src.a⟩

/-- The function `applyTint` (Renderer.ts lines 359-409) on the pixel data of a texture. -/
def applyTint (tex : List Pixel) (tint : Nat × Nat × Nat) : List Pixel :=
  tex.map (fun p => restoreAlpha p (multiplyBlend tint p))

/-! ### Default scale (Renderer.ts lines 440-447)

`renderBlock` destructures its options and computes
`options.scale ?? Math.round((height > width ? width : height) / 25.6)`.
Dimensions are modelled as rationals; `Math.round` rounds half toward
positive infinity, i.e. `floor (x + 1/2)`. -/

structure RenderOptions where
  width : Nat
  height : Nat
  scale : Option Int

/-- JavaScript `Math.round`: floor of the argument plus one half. -/
def jsRound (q : Rat) : Int :=
  Int.floor (q + 1 / 2)

/-- The scale actually used by `renderBlock` (Renderer.ts line 447). -/
def renderScale (o : RenderOptions) : Int :=
  match o.scale with
  | some s => s
  | none =>
      jsRound ((if o.height > o.width then (o.width : Rat) else (o.height : Rat)) / (128 / 5))

/-! ### String primitives

JavaScript string operations are modelled on the character list of the
string (`String.data`), which the kernel can evaluate: `strStartsWith`,
`strEndsWith`, `strDropRight` and `splitOnChar` mirror `startsWith`,
`endsWith`, slicing off a suffix, and `split(sep)` with a one-character
separator. -/

def strStartsWith (s p : String) : Bool :=
  p.data.isPrefixOf s.data

def strEndsWith (s p : String) : Bool :=
  p.data.isSuffixOf s.data

def strDropRight (s : String) (n : Nat) : String :=
  String.mk (s.data.take (s.data.length - n))

def strDrop (s : String) (n : Nat) : String :=
  String.mk (s.data.drop n)

def splitOnCharAux (c : Char) : List Char → List Char → List String
  | [], acc => [String.mk acc.reverse]
  | x :: xs, acc =>
      if x = c then String.mk acc.reverse :: splitOnCharAux c xs []
      else splitOnCharAux c xs (x :: acc)

/-- JavaScript `s.split(c)` for a single-character separator `c`. -/
def splitOnChar (c : Char) (s : String) : List String :=
  splitOnCharAux c s.data []

/-! ### Tint colour lookup (Renderer.ts lines 35-62 and 415-430) -/

/-- The built-in `TINT_COLORS` table: model base name to a map from
tintindex to RGB. -/
def TINT_COLORS : List (String × List (Nat × (Nat × Nat × Nat))) :=
  [ ("grass_block", [(0, (127, 178, 56))])
  , ("grass", [(0, (127, 178, 56))])
  , ("tall_grass", [(0, (127, 178, 56))])
  , ("seagrass", [(0, (127, 178, 56))])
  , ("vine", [(0, (127, 178, 56))])
  , ("oak_leaves", [(0, (127, 178, 56))])
  , ("birch_leaves", [(0, (128, 168, 63))])
  , ("spruce_leaves", [(0, (95, 130, 60))])
  , ("jungle_leaves", [(0, (97, 163, 43))])
  , ("acacia_leaves", [(0, (155, 178, 33))])
  , ("dark_oak_leaves", [(0, (103, 117, 53))])
  , ("cocoa", [(0, (128, 92, 63))])
  , ("cactus", [(0, (95, 160, 54))])
  , ("water", [(0, (63, 127, 255))])
  , ("water_cauldron", [(0, (63, 127, 255))])
  ]

/-- First-match lookup in an association list, the observable behaviour of
a JavaScript object/record property access. -/
def alistLookup {α : Type} (l : List (String × α)) (k : String) : Option α :=
  (l.find? (fun e => e.1 = k)).map (fun e => e.2)

/-- Lookup by numeric key (`colorMap[tintindex]`). -/
def nlistLookup {α : Type} (l : List (Nat × α)) (k : Nat) : Option α :=
  (l.find? (fun e => e.1 = k)).map (fun e => e.2)

/-- The expression `nameParts.pop()` with the `.json` suffix stripped
(Renderer.ts lines 418-420): the last `/`-separated component. -/
def tintBaseName (modelPath : String) : String :=
  let nameParts := splitOnChar '/' modelPath
  let last := nameParts.getLastD ""
  if strEndsWith last ".json" then strDropRight last 5 else last

/-- The function `getTintColor` (Renderer.ts lines 415-430). A face with no tintindex is
untinted; an empty base name yields no tint; a base name absent from
`TINT_COLORS` yields the default foliage green; a base name present in the
table yields that map's entry for the tintindex, or no tint when the map
has none (`colorMap[tintindex] || null`). -/
def getTintColor (modelPath : String) (tintindex : Option Nat) :
    Option (Nat × Nat × Nat) :=
  match tintindex with
  | none => none
  | some ti =>
      let baseName := tintBaseName modelPath
      if baseName = "" then none
      else
        match alistLookup TINT_COLORS baseName with
        | none => some (127, 178, 56)
        | some colorMap => nlistLookup colorMap ti

/-! ### Models and parent-chain resolution

`MCModel` is the `MinecraftModel` interface of Renderer.ts (the `display`
block is never consulted by the claims and is omitted); `MCElement` and
`MCFace` are the `Element` and `Face` interfaces. A model file tree is an
association list from model name (resourcePackBuilder keys by bare file
name, the renderer by normalized model path) to parsed model. -/

structure MCFace where
  texture : String
  uv : Option (Rat × Rat × Rat × Rat)
  cullface : Option String
  rotation : Option Int
  tintindex : Option Nat
  deriving DecidableEq

structure MCElement where
  efrom : Rat × Rat × Rat
  eto : Rat × Rat × Rat
  down : Option MCFace
  up : Option MCFace
  north : Option MCFace
  south : Option MCFace
  west : Option MCFace
  east : Option MCFace
  deriving DecidableEq

structure MCModel where
  parent : Option String
  textures : List (String × String)
  elements : Option (List MCElement)
  deriving DecidableEq

/-- Strip a leading `minecraft:` namespace (`replace(/^minecraft:/, '')`). -/
def stripMinecraftNS (s : String) : String :=
  if strStartsWith s "minecraft:" then strDrop s 10 else s

/-- The method `MinecraftPathResolver.normalizeModelPath` (paths.ts lines 309-318). -/
def normalizeModelPath (modelPath : String) : String :=
  let n1 := stripMinecraftNS modelPath
  let n2 := if strEndsWith n1 ".json" then strDropRight n1 5 else n1
  if strStartsWith n2 "block/" || strStartsWith n2 "item/" then n2
  else "block/" ++ n2

/-- The parent-name normalization inside `ResourcePackBuilder.resolveModel`
(resourcePackBuilder.ts lines 251-254): strip `minecraft:` then a leading
`block/`. -/
def builderParentName (p : String) : String :=
  let p1 := stripMinecraftNS p
  if strStartsWith p1 "block/" then strDrop p1 6 else p1

/-- The method `ResourcePackBuilder.resolveModel` (resourcePackBuilder.ts lines
233-269) on a fresh builder. `chain` is the per-resolution visited set; a
name already on the chain, or absent from the loaded model map, resolves
to `null`. When the parent resolves, textures are merged child-first
(object spread, child overrides) and elements are inherited only when the
child defines none; when the parent resolution yields `null` the child is
returned unchanged. The `fuel` argument bounds the recursion depth of the
embedding; the chain check makes the source recursion finite. -/
def resolveModelF (env : List (String × MCModel)) :
    Nat → String → List String → Option MCModel
  | 0, _, _ => none
  | fuel + 1, name, chain =>
      if name ∈ chain then none
      else
        match alistLookup env name with
        | none => none
        | some base =>
            match base.parent with
            | none => some base
            | some p =>
                match resolveModelF env fuel (builderParentName p) (name :: chain) with
                | none => some base
                | some pm =>
                    some { base with
                      textures := base.textures ++ pm.textures,
                      elements := base.elements.orElse (fun _ => pm.elements) }

/-- Resolution entered at the top with an empty chain; the chain never
holds more names than the model map, so `env.length + 1` fuel is enough
for every run the source can perform. -/
def resolveModel (env : List (String × MCModel)) (name : String) : Option MCModel :=
  resolveModelF env (env.length + 1) name []

/-- The method `MinecraftBlockRenderer.loadModel` (Renderer.ts lines 133-161) on a
fresh renderer. The models cache is only written after the parent chain
has been fully resolved, so on the inputs below it never interrupts the
recursion and is omitted. A missing file makes `readFile` throw; a parent
that fails to load propagates the failure. There is no visited set: the
only bound on the recursion is the `fuel` of the embedding. -/
def loadModelF (env : List (String × MCModel)) : Nat → String → Option MCModel
  | 0, _ => none
  | fuel + 1, path =>
      match alistLookup env (normalizeModelPath path) with
      | none => none
      | some model =>
          match model.parent with
          | none => some model
          | some p =>
              match loadModelF env fuel p with
              | none => none
              | some pm =>
                  some { model with
                    textures := model.textures ++ pm.textures,
                    elements := model.elements.orElse (fun _ => pm.elements) }

/-- The mutual-parent pair of the cycle-safety property, as the builder
sees it (bare names). -/
def cycEnvBuilder : List (String × MCModel) :=
  [("a", ⟨some "b", [], none⟩), ("b", ⟨some "a", [], none⟩)]

/-- The same mutual-parent pair as the renderer sees it (normalized
paths). -/
def cycEnvRenderer : List (String × MCModel) :=
  [("block/a", ⟨some "block/b", [], none⟩),
   ("block/b", ⟨some "block/a", [], none⟩)]

/-! ### 2D/3D item classification (itemManager.ts lines 166-202)

The model file tree is an association list from the model path relative to
`models/` (without `.json`) to the file's state: `unreadable` stands for a
file whose read or JSON parse throws, `parsed p` for a parsed model with
parent field `p`. -/

inductive DisplayType
  | d2
  | d3
  deriving DecidableEq

inductive MFile
  | unreadable
  | parsed (parent : Option String)
  deriving DecidableEq

/-- The expression `s.includes(':') ? s.split(':')[1] : s` — the destructuring
`[, x] = ...` used on both the model id and each parent reference. -/
def stripNamespaceJS (s : String) : String :=
  match splitOnChar ':' s with
  | _ :: second :: _ => second
  | _ => s

/-- The initial model path of the walk (itemManager.ts lines 169-172). -/
def initialModelPath (modelId : String) : String :=
  let rawPath := stripNamespaceJS modelId
  if strStartsWith rawPath "item/" || strStartsWith rawPath "block/" then rawPath
  else "item/" ++ rawPath

/-- The built-in sprite parents (itemManager.ts lines 184-185). -/
def isBuiltinSprite (parent : String) : Bool :=
  parent == "minecraft:item/generated" || parent == "item/generated" ||
  parent == "minecraft:item/handheld" || parent == "item/handheld"

/-- A parent under `block/`, namespaced or not (itemManager.ts line 189). -/
def isBlockParent (parent : String) : Bool :=
  strStartsWith parent "minecraft:block/" || strStartsWith parent "block/"

/-- The `while (existsSync(currentPath) && depth < 10)` walk. `gas` is
`10 - depth`: at gas 0 the loop condition fails and the default `3d` is
returned; a missing or unreadable file also yields `3d`. -/
def displayTypeGo (env : List (String × MFile)) : Nat → String → DisplayType
  | 0, _ => DisplayType.d3
  | gas + 1, path =>
      match alistLookup env path with
      | none => DisplayType.d3
      | some MFile.unreadable => DisplayType.d3
      | some (MFile.parsed none) => DisplayType.d3
      | some (MFile.parsed (some parent)) =>
          if isBuiltinSprite parent then DisplayType.d2
          else if isBlockParent parent then DisplayType.d3
          else displayTypeGo env gas (stripNamespaceJS parent)

/-- The method `ItemManager.getModelDisplayType` (itemManager.ts lines 166-202). -/
def getModelDisplayType (env : List (String × MFile)) (modelId : String) :
    DisplayType :=
  displayTypeGo env 10 (initialModelPath modelId)

/-! ### Version manifest fetch with stale-cache fallback
(minecraftVersionManager.ts lines 91-136) -/

structure VersionEntry where
  id : String
  vtype : String
  url : String
  time : String
  releaseTime : String
  deriving DecidableEq

structure VersionManifest where
  latestRelease : String
  latestSnapshot : String
  versions : List VersionEntry
  deriving DecidableEq

/-- The world a `getVersionManifest` call observes: the cache file on disk
(`none`: absent; `some none`: present but its read or parse throws;
`some (some m)`: readable), whether the cache file is older than the TTL,
and what the remote fetch would deliver (`none`: the fetch fails). -/
structure ManifestWorld where
  cacheFile : Option (Option VersionManifest)
  expired : Bool
  fetched : Option VersionManifest
  deriving DecidableEq

inductive ManifestError
  | fetchFailed
  | noValidCache
  deriving DecidableEq

/-- Lines 104-135: fetch; on success return (and cache) the remote
manifest; on failure re-read the cache file if it exists, raising
`noValidCache` when that read fails too, and the original fetch error
when there is no cache file at all. -/
def manifestFetchPath (w : ManifestWorld) : Except ManifestError VersionManifest :=
  match w.fetched with
  | some m => Except.ok m
  | none =>
      match w.cacheFile with
      | some (some m) => Except.ok m
      | some none => Except.error ManifestError.noValidCache
      | none => Except.error ManifestError.fetchFailed

/-- The method `getVersionManifest` (lines 91-136): a fresh readable cache is served
directly when `forceRefresh` is off; every other case — forced refresh,
missing, expired or unreadable cache — goes through the fetch path. -/
def getVersionManifest (w : ManifestWorld) (forceRefresh : Bool) :
    Except ManifestError VersionManifest :=
  match forceRefresh, w.expired, w.cacheFile with
  | false, false, some (some m) => Except.ok m
  | _, _, _ => manifestFetchPath w

/-- A trivial full cube element used by the concrete merge scenarios. -/
def e0 : MCElement :=
  ⟨(0, 0, 0), (16, 16, 16), none, none, none, none, none, none⟩

/-- A child defining only textures whose parent defines elements, keyed
the builder way. -/
def env4 : List (String × MCModel) :=
  [ ("stone", ⟨some "cube", [("all", "block/stone")], none⟩)
  , ("cube", ⟨none, [("all", "block/default"), ("particle", "block/pp")],
      some [e0]⟩) ]

/-- The same scenario keyed the renderer way. -/
def envR4 : List (String × MCModel) :=
  [ ("block/stone", ⟨some "block/cube", [("all", "block/stone")], none⟩)
  , ("block/cube", ⟨none, [("all", "block/default")], some [e0]⟩) ]

/-- An item whose parent is the generated sprite, one whose parent is a
block model, and one with no parent. -/
def env5 : List (String × MFile) :=
  [ ("item/apple", MFile.parsed (some "minecraft:item/generated"))
  , ("item/stone", MFile.parsed (some "minecraft:block/stone"))
  , ("item/oddity", MFile.parsed none) ]

/-- A concrete manifest for the stale-fallback scenario. -/
def m0 : VersionManifest :=
  ⟨"1.21", "24w14a", [⟨"1.21", "release", "u", "t", "rt"⟩]⟩

/-! ### Asset extraction (minecraftVersionManager.ts lines 234-302)

One run of the async body of `getAssets` over an explicit world: whether
`getVersionDetails` succeeds, the current contents of the per-version
extraction directory (as the list of extracted file paths; `none` when
the directory does not exist), whether that directory is older than the
TTL, whether `getClientJar` settles successfully, what `zip.entries()`
yields (`none` when it throws on a corrupt archive), and which
`zip.extract` call — counting only extracted files, 0-based — throws,
if any. -/

structure ZipEntry where
  name : String
  isDirectory : Bool
  deriving DecidableEq

structure AssetsWorld where
  detailsOk : Bool
  assetsDir : Option (List String)
  dirExpired : Bool
  jarOk : Bool
  entries : Option (List ZipEntry)
  extractFailAt : Option Nat
  deriving DecidableEq

/-- The settled state of one `getAssets` run: whether the promise
fulfilled (with the assets dir path) or rejected, and the directory
contents at that path afterwards. -/
structure AssetsOutcome where
  succeeded : Bool
  dir : Option (List String)
  deriving DecidableEq

/-- The extraction loop (lines 264-279): entries outside
`assets/minecraft` are skipped, directory entries only create
directories, file entries are extracted in order until the failing
`zip.extract` call (if any) throws. Returns the extracted file list and
whether the loop completed. -/
def extractEntries : List ZipEntry → Option Nat → List String × Bool
  | [], _ => ([], true)
  | en :: rest, failAt =>
      if strStartsWith en.name "assets/minecraft" then
        if en.isDirectory then extractEntries rest failAt
        else
          match failAt with
          | some 0 => ([], false)
          | some (k + 1) =>
              let r := extractEntries rest (some k)
              (en.name :: r.1, r.2)
          | none =>
              let r := extractEntries rest none
              (en.name :: r.1, r.2)
      else extractEntries rest failAt

/-- The method `getAssets` (lines 234-302), one run. A fresh unexpired directory is
served as-is (lines 246-248). A `getClientJar` failure is caught before
the old directory is touched, so the fallback (lines 289-292) returns
the old directory when it exists and rethrows otherwise. Once the jar is
in hand the old directory is deleted and recreated empty (lines
256-259); from that point on the fallback's `existsSync` always sees the
fresh directory, so a `zip.entries()` failure returns the empty
directory and a mid-extraction failure returns the partially filled
one. -/
def getAssets (w : AssetsWorld) (forceRefresh : Bool) : AssetsOutcome :=
  if w.detailsOk = false then ⟨false, w.assetsDir⟩
  else if forceRefresh = false ∧ w.assetsDir.isSome ∧ w.dirExpired = false then
    ⟨true, w.assetsDir⟩
  else if w.jarOk = false then
    match w.assetsDir with
    | some old => ⟨true, some old⟩
    | none => ⟨false, none⟩
  else
    match w.entries with
    | none => ⟨true, some []⟩
    | some es =>
        let r := extractEntries es w.extractFailAt
        ⟨true, some r.1⟩

/-- A re-extraction over an existing directory whose second `zip.extract`
call fails. -/
def extractFailWorld : AssetsWorld :=
  ⟨true, some ["assets/minecraft/old_texture.png"], true, true,
   some [⟨"assets/minecraft/new1.png", false⟩, ⟨"assets/minecraft/new2.png", false⟩],
   some 1⟩

/-- A re-extraction over an existing directory whose jar download fails. -/
def downloadFailWorld : AssetsWorld :=
  ⟨true, some ["assets/minecraft/old_texture.png"], true, false, none, none⟩

/-! ### In-flight task map of `getAssets` (lines 54, 236-239, 296-301)

The synchronous check-create-register prefix of `getAssets` and the
`finally` cleanup run atomically on the JavaScript event loop, so the
map dynamics are the induced transition system: a `call` event is the
prefix, a `settle` event is the `finally` handler of the task stored
under the key. Tasks (promises) are identified by creation index. -/

structure TaskMapState where
  inflight : List (String × Nat)
  nextId : Nat
  deriving DecidableEq

/-- The template literal of line 236. -/
def taskKey (versionId : String) (forceRefresh : Bool) : String :=
  versionId ++ ":" ++ (if forceRefresh then "true" else "false")

/-- Lines 237-239 and 300-301: an existing pending task is returned as
is; otherwise a fresh task is created, registered under the key, and
returned. -/
def getAssetsCall (s : TaskMapState) (key : String) : TaskMapState × Nat :=
  match alistLookup s.inflight key with
  | some tid => (s, tid)
  | none => (⟨(key, s.nextId) :: s.inflight, s.nextId + 1⟩, s.nextId)

/-- Lines 296-298: when the task registered under a key settles —
fulfilled or rejected — `finally` deletes that key's entry. -/
def getAssetsSettle (s : TaskMapState) (key : String) : TaskMapState :=
  ⟨s.inflight.filter (fun e => ¬(e.1 = key)), s.nextId⟩

/-- Map well-formedness: one entry per key, and task ids below the
creation counter. -/
def TaskInv (s : TaskMapState) : Prop :=
  (s.inflight.map Prod.fst).Nodup ∧ ∀ e ∈ s.inflight, e.2 < s.nextId

/-! ### Back-face culling and depth sort (Renderer.ts lines 501-522)

A face that reaches the cull step carries its four projected vertices;
`renderBlock` computes the signed area of the first three, drops the
face when it is non-negative, sorts the survivors by descending mean
projected z (`sort((a, b) => b.avgZ - a.avgZ)`), and draws them in that
order. -/

structure ProjVec where
  x : Rat
  y : Rat
  z : Rat
  deriving DecidableEq

structure RenderFace where
  faceName : String
  face : MCFace
  p0 : ProjVec
  p1 : ProjVec
  p2 : ProjVec
  p3 : ProjVec
  deriving DecidableEq

/-- Line 505: the 2D cross product of the first three projected
vertices. -/
def faceDeterminant (f : RenderFace) : Rat :=
  (f.p1.x - f.p0.x) * (f.p2.y - f.p0.y) - (f.p1.y - f.p0.y) * (f.p2.x - f.p0.x)

/-- Line 509: the mean projected z of the four vertices. -/
def avgZ (f : RenderFace) : Rat :=
  (f.p0.z + f.p1.z + f.p2.z + f.p3.z) / 4

/-- Line 510: the minimum projected z; stored on the render datum but
not consulted by the sort. -/
def minZ (f : RenderFace) : Rat :=
  min (min f.p0.z f.p1.z) (min f.p2.z f.p3.z)

/-- Line 506: the face survives when the determinant is negative. -/
def survivesCull (f : RenderFace) : Bool :=
  faceDeterminant f < 0

/-- Stable insertion keeping the list sorted by descending `avgZ`: the
new face goes in front of the first entry with a strictly smaller
`avgZ`, hence after every entry with an equal one — the order a stable
comparator sort with `b.avgZ - a.avgZ` produces. -/
def insertFaceDesc (f : RenderFace) : List RenderFace → List RenderFace
  | [] => [f]
  | g :: gs =>
      if avgZ g < avgZ f then f :: g :: gs
      else g :: insertFaceDesc f gs

/-- A stable sort by descending `avgZ`, the guarantee of
`Array.prototype.sort` with the comparator of line 519. -/
def sortFacesDesc : List RenderFace → List RenderFace
  | [] => []
  | f :: fs => insertFaceDesc f (sortFacesDesc fs)

/-- The order in which the drawing loop of lines 522-654 visits faces:
cull, then depth sort. -/
def renderOrder (faces : List RenderFace) : List RenderFace :=
  sortFacesDesc (faces.filter survivesCull)

theorem alistLookup_append {α : Type} (l1 l2 : List (String × α)) (k : String) :
    alistLookup (l1 ++ l2) k
      = (alistLookup l1 k).orElse (fun _ => alistLookup l2 k) := by
  induction l1 with
  | nil => simp [alistLookup]
  | cons e l ih =>
      by_cases h : e.1 = k
      · simp [alistLookup, List.find?_cons, h]
      · simpa [alistLookup, List.find?_cons, h] using ih

/-! ### Theorems -/

/-- C7: `applyTint` leaves every pixel's alpha equal to the source pixel's
alpha, and a source pixel whose alpha is 0 comes out as fully transparent
black, for every texture and every tint colour. -/
theorem applyTint_preserves_alpha (tex : List Pixel) (tint : Nat × Nat × Nat) :
    (applyTint tex tint).map Pixel.a = tex.map Pixel.a ∧
    ∀ i : Nat, ∀ h1 : i < tex.length, ∀ h2 : i < (applyTint tex tint).length,
      (tex.get ⟨i, h1⟩).a = 0 → (applyTint tex tint).get ⟨i, h2⟩ = ⟨0, 0, 0, 0⟩ := by
  constructor
  · induction tex with
    | nil => rfl
    | cons p ps ih =>
        simp only [applyTint, List.map_cons] at *
        refine congrArg₂ _ ?_ ih
        by_cases h : p.a = 0 <;> simp [restoreAlpha, h]
  · intro i h1 h2 hz
    simp only [applyTint, List.get_eq_getElem, List.getElem_map]
    simp only [List.get_eq_getElem] at hz
    simp [restoreAlpha, hz]

/-- C7 witness. -/
theorem applyTint_preserves_alpha_witness :
    (applyTint [⟨10, 20, 30, 0⟩, ⟨40, 50, 60, 200⟩] (255, 0, 0)).map Pixel.a
      = [⟨10, 20, 30, 0⟩, ⟨40, 50, 60, 200⟩].map Pixel.a ∧
    (applyTint [⟨10, 20, 30, 0⟩, ⟨40, 50, 60, 200⟩] (255, 0, 0)).get ⟨0, by decide⟩
      = ⟨0, 0, 0, 0⟩ := by
  refine ⟨(applyTint_preserves_alpha _ _).1, ?_⟩
  exact (applyTint_preserves_alpha [⟨10, 20, 30, 0⟩, ⟨40, 50, 60, 200⟩] (255, 0, 0)).2
    0 (by decide) (by decide) (by decide)

/-- C9: when the options omit `scale`, `renderBlock` uses
`round(min(width, height) / 25.6)`; when the options supply it, that value
is used unchanged. -/
theorem renderScale_default (o : RenderOptions) :
    (o.scale = none →
      renderScale o = jsRound ((min o.width o.height : Rat) / (128 / 5))) ∧
    (∀ s : Int, o.scale = some s → renderScale o = s) := by
  constructor
  · intro h
    simp only [renderScale, h]
    have hmin : (if o.height > o.width then (o.width : Rat) else (o.height : Rat))
        = ((min o.width o.height : Nat) : Rat) := by
      rcases Nat.lt_or_ge o.width o.height with hlt | hle
      · rw [if_pos hlt, Nat.min_eq_left (Nat.le_of_lt hlt)]
      · rw [if_neg (Nat.not_lt.mpr hle), Nat.min_eq_right hle]
    rw [hmin, Nat.cast_min]
  · intro s h
    simp [renderScale, h]

/-- C9 witness. -/
theorem renderScale_default_witness :
    renderScale ⟨128, 96, none⟩
      = jsRound ((min (128 : Nat) (96 : Nat) : Rat) / (128 / 5)) ∧
    renderScale ⟨128, 96, some 7⟩ = 7 :=
  ⟨(renderScale_default ⟨128, 96, none⟩).1 rfl,
   (renderScale_default ⟨128, 96, some 7⟩).2 7 rfl⟩

/-- C10: with a tintindex present, a model base name absent from
`TINT_COLORS` gets the default foliage green for any tintindex, while a
base name present in the table whose colour map lacks the tintindex gets
no tint at all. -/
theorem getTintColor_asymmetric_default (path : String) (ti : Nat)
    (hne : tintBaseName path ≠ "") :
    (alistLookup TINT_COLORS (tintBaseName path) = none →
      getTintColor path (some ti) = some (127, 178, 56)) ∧
    (∀ m, alistLookup TINT_COLORS (tintBaseName path) = some m →
      nlistLookup m ti = none → getTintColor path (some ti) = none) := by
  constructor
  · intro h
    simp [getTintColor, if_neg hne, h]
  · intro m hm hti
    simp [getTintColor, if_neg hne, hm, hti]

/-- C10 witness: `water` is in the table with only tintindex 0, so
tintindex 1 gets no tint, while the unknown base name gets default green
even at tintindex 5. -/
theorem getTintColor_asymmetric_default_witness :
    getTintColor "block/water" (some 1) = none ∧
    getTintColor "block/unknown_block" (some 5) = some (127, 178, 56) := by
  constructor
  · exact (getTintColor_asymmetric_default "block/water" 1 (by decide)).2
      [(0, (63, 127, 255))] (by decide) (by decide)
  · exact (getTintColor_asymmetric_default "block/unknown_block" 5 (by decide)).1
      (by decide)

/-- C4: in both resolvers, when a model's parent resolves, the resolved
textures map is the key-wise union with the child winning on every shared
key, and the resolved elements are the child's own when it defines the
field, otherwise the parent's resolved elements; in particular a child
with no elements inherits the parent's elements wholesale. -/
theorem modelInheritanceMerge :
    (∀ (env : List (String × MCModel)) (fuel : Nat) (name p : String)
        (base pm : MCModel),
      alistLookup env name = some base →
      base.parent = some p →
      resolveModelF env fuel (builderParentName p) [name] = some pm →
      ∃ m, resolveModelF env (fuel + 1) name [] = some m ∧
        (∀ k, alistLookup m.textures k
          = (alistLookup base.textures k).orElse
              (fun _ => alistLookup pm.textures k)) ∧
        m.elements = base.elements.orElse (fun _ => pm.elements) ∧
        (base.elements = none → m.elements = pm.elements)) ∧
    (∀ (env : List (String × MCModel)) (fuel : Nat) (path p : String)
        (model pm : MCModel),
      alistLookup env (normalizeModelPath path) = some model →
      model.parent = some p →
      loadModelF env fuel p = some pm →
      ∃ m, loadModelF env (fuel + 1) path = some m ∧
        (∀ k, alistLookup m.textures k
          = (alistLookup model.textures k).orElse
              (fun _ => alistLookup pm.textures k)) ∧
        m.elements = model.elements.orElse (fun _ => pm.elements) ∧
        (model.elements = none → m.elements = pm.elements)) := by
  constructor
  · intro env fuel name p base pm hb hp hpm
    refine ⟨{ base with
        textures := base.textures ++ pm.textures,
        elements := base.elements.orElse (fun _ => pm.elements) },
      ?_, ?_, rfl, ?_⟩
    · simp [resolveModelF, hb, hp, hpm]
    · intro k
      exact alistLookup_append _ _ _
    · intro h
      simp [h]
  · intro env fuel path p model pm hb hp hpm
    refine ⟨{ model with
        textures := model.textures ++ pm.textures,
        elements := model.elements.orElse (fun _ => pm.elements) },
      ?_, ?_, rfl, ?_⟩
    · simp [loadModelF, hb, hp, hpm]
    · intro k
      exact alistLookup_append _ _ _
    · intro h
      simp [h]

/-- C4 witness: the child defining only textures resolves, in both
resolvers, to the parent's elements with the child-overriding texture
map. -/
theorem modelInheritanceMerge_witness :
    (∃ m, resolveModelF env4 2 "stone" [] = some m ∧
      m.elements = some [e0] ∧
      alistLookup m.textures "all" = some "block/stone" ∧
      alistLookup m.textures "particle" = some "block/pp") ∧
    (∃ m, loadModelF envR4 2 "block/stone" = some m ∧
      m.elements = some [e0] ∧
      alistLookup m.textures "all" = some "block/stone") := by
  constructor
  · obtain ⟨m, hm, htex, helem, helem0⟩ :=
      modelInheritanceMerge.1 env4 1 "stone" "cube"
        ⟨some "cube", [("all", "block/stone")], none⟩
        ⟨none, [("all", "block/default"), ("particle", "block/pp")], some [e0]⟩
        (by decide) rfl (by decide)
    refine ⟨m, hm, helem0 rfl, ?_, ?_⟩
    · rw [htex "all"]; decide
    · rw [htex "particle"]; decide
  · obtain ⟨m, hm, htex, helem, helem0⟩ :=
      modelInheritanceMerge.2 envR4 1 "block/stone" "block/cube"
        ⟨some "block/cube", [("all", "block/stone")], none⟩
        ⟨none, [("all", "block/default")], some [e0]⟩
        (by decide) rfl (by decide)
    refine ⟨m, hm, helem0 rfl, ?_⟩
    rw [htex "all"]; decide

/-- C3: on the mutual-parent pair `A.parent = B`, `B.parent = A`, the
builder's `resolveModel` terminates and yields a model with no elements,
but the renderer's `loadModel` completes for no recursion depth at all:
its models cache is written only after the parent chain resolves, so
nothing breaks the cycle and the source recursion is unbounded. -/
theorem modelCycle_builder_ok_renderer_diverges :
    resolveModel cycEnvBuilder "a" = some ⟨some "b", [], none⟩ ∧
    ∀ fuel : Nat, loadModelF cycEnvRenderer fuel "block/a" = none := by
  constructor
  · decide
  · have key : ∀ fuel : Nat,
        loadModelF cycEnvRenderer fuel "block/a" = none ∧
        loadModelF cycEnvRenderer fuel "block/b" = none := by
      intro fuel
      induction fuel with
      | zero => exact ⟨rfl, rfl⟩
      | succ n ih =>
          constructor
          · have h1 : alistLookup cycEnvRenderer (normalizeModelPath "block/a")
                = some ⟨some "block/b", [], none⟩ := by decide
            simp [loadModelF, h1, ih.2]
          · have h2 : alistLookup cycEnvRenderer (normalizeModelPath "block/b")
                = some ⟨some "block/a", [], none⟩ := by decide
            simp [loadModelF, h2, ih.1]
    intro fuel
    exact (key fuel).1

/-- C5: the classification walks the model-parent chain with bound 10:
with gas remaining, a missing or unreadable model file or an absent
parent yields Block3D, a built-in `item/generated` or `item/handheld`
parent (namespaced or not) yields Sprite2D, a `block/` parent yields
Block3D, and any other parent continues the walk one step deeper; at gas
0 the bound is reached and the default Block3D is returned; the whole
walk starts at the item's model path with gas 10. -/
theorem getModelDisplayType_walk (env : List (String × MFile))
    (modelId path parent : String) (gas : Nat) :
    getModelDisplayType env modelId
      = displayTypeGo env 10 (initialModelPath modelId) ∧
    displayTypeGo env 0 path = DisplayType.d3 ∧
    (alistLookup env path = none →
      displayTypeGo env (gas + 1) path = DisplayType.d3) ∧
    (alistLookup env path = some MFile.unreadable →
      displayTypeGo env (gas + 1) path = DisplayType.d3) ∧
    (alistLookup env path = some (MFile.parsed none) →
      displayTypeGo env (gas + 1) path = DisplayType.d3) ∧
    (alistLookup env path = some (MFile.parsed (some parent)) →
      (isBuiltinSprite parent = true →
        displayTypeGo env (gas + 1) path = DisplayType.d2) ∧
      (isBuiltinSprite parent = false → isBlockParent parent = true →
        displayTypeGo env (gas + 1) path = DisplayType.d3) ∧
      (isBuiltinSprite parent = false → isBlockParent parent = false →
        displayTypeGo env (gas + 1) path
          = displayTypeGo env gas (stripNamespaceJS parent))) := by
  refine ⟨rfl, rfl, ?_, ?_, ?_, ?_⟩
  · intro h; simp [displayTypeGo, h]
  · intro h; simp [displayTypeGo, h]
  · intro h; simp [displayTypeGo, h]
  · intro h
    refine ⟨?_, ?_, ?_⟩
    · intro hs; simp [displayTypeGo, h, hs]
    · intro hs hb; simp [displayTypeGo, h, hs, hb]
    · intro hs hb; simp [displayTypeGo, h, hs, hb]

/-- C5 witness: the spec's three classification examples. -/
theorem getModelDisplayType_walk_witness :
    displayTypeGo env5 10 "item/apple" = DisplayType.d2 ∧
    displayTypeGo env5 10 "item/stone" = DisplayType.d3 ∧
    displayTypeGo env5 10 "item/oddity" = DisplayType.d3 ∧
    getModelDisplayType env5 "minecraft:apple" = DisplayType.d2 := by
  refine ⟨?_, ?_, ?_, ?_⟩
  · exact ((getModelDisplayType_walk env5 "x" "item/apple"
      "minecraft:item/generated" 9).2.2.2.2.2 (by decide)).1 (by decide)
  · exact ((getModelDisplayType_walk env5 "x" "item/stone"
      "minecraft:block/stone" 9).2.2.2.2.2 (by decide)).2.1 (by decide) (by decide)
  · exact (getModelDisplayType_walk env5 "x" "item/oddity" "p" 9).2.2.2.2.1
      (by decide)
  · have h := getModelDisplayType_walk env5 "minecraft:apple" "item/apple"
      "minecraft:item/generated" 9
    rw [h.1, show initialModelPath "minecraft:apple" = "item/apple" from by decide]
    exact (h.2.2.2.2.2 (by decide)).1 (by decide)

/-- C6: whenever the cache file holds a readable manifest, a call whose
remote fetch fails returns that cached manifest — TTL expiry and
`forceRefresh` notwithstanding — and an error is propagated only when no
readable cache file exists at all. -/
theorem getVersionManifest_stale_fallback (w : ManifestWorld) (fr : Bool)
    (m : VersionManifest) :
    (w.cacheFile = some (some m) → w.fetched = none →
      getVersionManifest w fr = Except.ok m) ∧
    (∀ e, getVersionManifest w fr = Except.error e →
      w.cacheFile = none ∨ w.cacheFile = some none) := by
  constructor
  · intro hc hf
    rcases fr with _ | _ <;> rcases hex : w.expired with _ | _ <;>
      simp [getVersionManifest, manifestFetchPath, hc, hf, hex]
  · intro e he
    rcases w with ⟨cf, ex, fe⟩
    rcases fe with _ | m2
    · rcases cf with _ | cf2
      · left; rfl
      · rcases cf2 with _ | m3
        · right; rfl
        · exfalso
          rcases fr with _ | _ <;> rcases ex with _ | _ <;>
            simp [getVersionManifest, manifestFetchPath] at he
    · exfalso
      rcases fr with _ | _ <;> rcases ex with _ | _ <;>
        rcases cf with _ | (_ | _) <;>
        simp [getVersionManifest, manifestFetchPath] at he

/-- C6 witness: a TTL-expired cached manifest plus a failing fetch still
returns the cached manifest. -/
theorem getVersionManifest_stale_fallback_witness :
    getVersionManifest ⟨some (some m0), true, none⟩ false = Except.ok m0 :=
  (getVersionManifest_stale_fallback ⟨some (some m0), true, none⟩ false m0).1
    rfl rfl

theorem alistLookup_filter_ne {α : Type} (l : List (String × α)) (key k2 : String) :
    alistLookup (l.filter (fun e => ¬(e.1 = key))) k2
      = if k2 = key then none else alistLookup l k2 := by
  induction l with
  | nil => by_cases h2 : k2 = key <;> simp [alistLookup, h2]
  | cons e l ih =>
      by_cases hk : e.1 = key <;> by_cases h2 : k2 = key <;>
        by_cases he : e.1 = k2 <;>
        simp_all [alistLookup, List.filter_cons, List.find?_cons]

theorem alistLookup_eq_none {α : Type} (l : List (String × α)) (k : String) :
    alistLookup l k = none ↔ k ∉ l.map Prod.fst := by
  induction l with
  | nil => simp [alistLookup]
  | cons e l ih =>
      by_cases h : e.1 = k
      · simp [alistLookup, List.find?_cons, h]
      · have h2 : ¬(k = e.1) := fun hh => h hh.symm
        simpa [alistLookup, List.find?_cons, h, h2] using ih

/-- C1 (evaluation at the failing input): re-extracting over an existing
asset directory whose second `zip.extract` call throws settles
successfully with the partially rebuilt directory — the previously
extracted contents are gone — while a jar download failure does preserve
and return the old directory. -/
theorem getAssets_extraction_failure_loses_old_dir :
    getAssets extractFailWorld true
      = ⟨true, some ["assets/minecraft/new1.png"]⟩ ∧
    getAssets extractFailWorld true
      ≠ ⟨true, some ["assets/minecraft/old_texture.png"]⟩ ∧
    getAssets downloadFailWorld true
      = ⟨true, some ["assets/minecraft/old_texture.png"]⟩ := by
  decide

/-- C2: for each `(versionId, forceRefresh)` key, a call made while a
task for that key is pending returns that same task and leaves the map
unchanged; a call with no pending task registers exactly one fresh task
under the key; when the task settles — success or failure alike — the
`finally` handler removes exactly that key's entry; the map keeps at
most one entry per key; and a call after the settle starts a task
distinct from every previously registered one. -/
theorem getAssets_single_flight (s : TaskMapState)
    (versionId k2 : String) (forceRefresh : Bool) (tid : Nat) :
    (alistLookup s.inflight (taskKey versionId forceRefresh) = some tid →
      getAssetsCall s (taskKey versionId forceRefresh) = (s, tid)) ∧
    (alistLookup s.inflight (taskKey versionId forceRefresh) = none →
      (getAssetsCall s (taskKey versionId forceRefresh)).2 = s.nextId ∧
      alistLookup (getAssetsCall s (taskKey versionId forceRefresh)).1.inflight
        (taskKey versionId forceRefresh) = some s.nextId) ∧
    alistLookup (getAssetsSettle s (taskKey versionId forceRefresh)).inflight
      (taskKey versionId forceRefresh) = none ∧
    (k2 ≠ taskKey versionId forceRefresh →
      alistLookup (getAssetsSettle s (taskKey versionId forceRefresh)).inflight k2
        = alistLookup s.inflight k2) ∧
    (TaskInv s →
      TaskInv (getAssetsCall s (taskKey versionId forceRefresh)).1 ∧
      TaskInv (getAssetsSettle s (taskKey versionId forceRefresh))) ∧
    (TaskInv s → ∀ e ∈ s.inflight,
      (getAssetsCall (getAssetsSettle s (taskKey versionId forceRefresh))
        (taskKey versionId forceRefresh)).2 ≠ e.2) := by
  set key := taskKey versionId forceRefresh with hkey
  refine ⟨?_, ?_, ?_, ?_, ?_, ?_⟩
  · intro h
    simp [getAssetsCall, h]
  · intro h
    constructor
    · simp only [getAssetsCall, h]
    · simp only [getAssetsCall, h]
      simp [alistLookup, List.find?_cons]
  · show alistLookup (s.inflight.filter _) key = none
    rw [alistLookup_filter_ne]
    simp
  · intro h
    show alistLookup (s.inflight.filter _) k2 = _
    rw [alistLookup_filter_ne, if_neg h]
  · rintro ⟨hnod, hid⟩
    constructor
    · cases hl : alistLookup s.inflight key with
      | some tid2 =>
          simp only [getAssetsCall, hl]
          exact ⟨hnod, hid⟩
      | none =>
          refine ⟨?_, ?_⟩
          · simp only [getAssetsCall, hl, List.map_cons]
            exact List.nodup_cons.mpr ⟨(alistLookup_eq_none _ _).mp hl, hnod⟩
          · intro e he
            simp only [getAssetsCall, hl, List.mem_cons] at he ⊢
            rcases he with rfl | he2
            · exact Nat.lt_succ_self _
            · exact Nat.lt_succ_of_lt (hid e he2)
    · constructor
      · exact hnod.sublist ((s.inflight.filter_sublist).map Prod.fst)
      · intro e he
        exact hid e (List.mem_of_mem_filter he)
  · rintro ⟨hnod, hid⟩ e he
    have hset : alistLookup (getAssetsSettle s key).inflight key = none := by
      show alistLookup (s.inflight.filter _) key = none
      rw [alistLookup_filter_ne]
      simp
    have h2 : (getAssetsCall (getAssetsSettle s key) key).2
        = (getAssetsSettle s key).nextId := by
      simp only [getAssetsCall, hset]
    rw [h2]
    show s.nextId ≠ e.2
    exact (Nat.ne_of_lt (hid e he)).symm

/-- C2 witness. -/
theorem getAssets_single_flight_witness :
    getAssetsCall ⟨[("1.21:false", 0)], 1⟩ (taskKey "1.21" false)
      = (⟨[("1.21:false", 0)], 1⟩, 0) ∧
    alistLookup (getAssetsSettle ⟨[("1.21:false", 0)], 1⟩
        (taskKey "1.21" false)).inflight (taskKey "1.21" false) = none := by
  refine ⟨?_, ?_⟩
  · exact (getAssets_single_flight ⟨[("1.21:false", 0)], 1⟩ "1.21" "x" false 0).1
      (by decide)
  · exact (getAssets_single_flight ⟨[("1.21:false", 0)], 1⟩ "1.21" "x" false 0).2.2.1

theorem insertFaceDesc_perm (f : RenderFace) (l : List RenderFace) :
    (insertFaceDesc f l).Perm (f :: l) := by
  induction l with
  | nil => exact List.Perm.refl _
  | cons g gs ih =>
      by_cases hc : avgZ g < avgZ f
      · simp [insertFaceDesc, hc]
      · simp only [insertFaceDesc, if_neg hc]
        exact (ih.cons g).trans (List.Perm.swap f g gs)

theorem insertFaceDesc_pairwise (f : RenderFace) (l : List RenderFace)
    (h : l.Pairwise (fun a b => avgZ b ≤ avgZ a)) :
    (insertFaceDesc f l).Pairwise (fun a b => avgZ b ≤ avgZ a) := by
  induction l with
  | nil => simp [insertFaceDesc]
  | cons g gs ih =>
      rcases List.pairwise_cons.mp h with ⟨hg, hgs⟩
      by_cases hc : avgZ g < avgZ f
      · simp only [insertFaceDesc, if_pos hc]
        refine List.pairwise_cons.mpr ⟨?_, h⟩
        intro y hy
        rcases List.mem_cons.mp hy with rfl | hy2
        · exact le_of_lt hc
        · exact le_trans (hg y hy2) (le_of_lt hc)
      · simp only [insertFaceDesc, if_neg hc]
        refine List.pairwise_cons.mpr ⟨?_, ih hgs⟩
        intro y hy
        rcases List.mem_cons.mp ((insertFaceDesc_perm f gs).mem_iff.mp hy)
          with rfl | hy3
        · exact not_lt.mp hc
        · exact hg y hy3

theorem sortFacesDesc_perm (l : List RenderFace) : (sortFacesDesc l).Perm l := by
  induction l with
  | nil => exact List.Perm.refl _
  | cons f fs ih => exact (insertFaceDesc_perm f _).trans (ih.cons f)

theorem sortFacesDesc_pairwise (l : List RenderFace) :
    (sortFacesDesc l).Pairwise (fun a b => avgZ b ≤ avgZ a) := by
  induction l with
  | nil => simp [sortFacesDesc]
  | cons f fs ih => exact insertFaceDesc_pairwise f _ ih

/-- C8: after back-face culling, the faces are drawn in order of
non-increasing mean projected z — the drawn sequence is a permutation of
the surviving faces, pairwise sorted so every later face has a mean z no
larger than every earlier one, and every drawn face passed the cull. -/
theorem renderOrder_depth_sorted (faces : List RenderFace) :
    (renderOrder faces).Pairwise (fun a b => avgZ b ≤ avgZ a) ∧
    (renderOrder faces).Perm (faces.filter survivesCull) ∧
    ∀ f ∈ renderOrder faces, survivesCull f = true := by
  refine ⟨sortFacesDesc_pairwise _, sortFacesDesc_perm _, ?_⟩
  intro f hf
  exact (List.mem_filter.mp ((sortFacesDesc_perm _).mem_iff.mp hf)).2

end MCPlugin
